import Mathlib

/-!
Verification of the Daip chat-room core: presence/heartbeat protocol,
message bus, and bot command dispatcher.

The definitions below are a shallow embedding of the TypeScript source:
`src/types.ts` (data model), `src/constants.ts` (static configuration),
`src/App.tsx` (the `ChatRoom` component: presence tracking, message
handling, bot dispatch) and `src/services/aiService.ts` (the assistant
call).  Timestamps are modelled as `Int` (JavaScript `Date.now()`
values); JavaScript `undefined`-able fields are `Option`s.
-/

namespace Daip

/-- `MessageType` enum from `src/types.ts`. -/
inductive MessageType where
  | TEXT
  | VIDEO
  | SYSTEM
  deriving Repr, DecidableEq

/-- `User` interface from `src/types.ts`.  `lastSeen` is optional there
(`lastSeen?: number`). -/
structure User where
  id : String
  nickname : String
  avatar : String
  isOnline : Bool
  lastSeen : Option Int := none
  deriving Repr, DecidableEq

/-- `Message` interface from `src/types.ts`.  `videoUrl` and `isAi` are
optional fields. -/
structure Message where
  id : String
  senderId : String
  senderName : String
  avatar : String
  content : String
  type : MessageType
  timestamp : Int
  videoUrl : Option String := none
  isAi : Option Bool := none
  deriving Repr, DecidableEq

/-- `VIDEO_PARSER_URL` from `src/constants.ts`. -/
def VIDEO_PARSER_URL : String := "https://jx.xmflv.com/?url="

/-- `MOVIE_BOT_CONFIG.NAME` from `src/constants.ts`. -/
def MOVIE_BOT_NAME : String := "电影助手"

/-- `MOVIE_BOT_CONFIG.AVATAR` from `src/constants.ts`. -/
def MOVIE_BOT_AVATAR : String := "https://picsum.photos/id/452/200/200"

/-- `AI_CONFIG.BOT_NAME` from `src/constants.ts`. -/
def AI_BOT_NAME : String := "川小农"

/-- `AI_CONFIG.BOT_AVATAR` from `src/constants.ts`. -/
def AI_BOT_AVATAR : String := "https://picsum.photos/id/64/200/200"

/-- Staleness TTL used by the cleanup loop in `src/App.tsx` (3000 ms). -/
def STALE_TTL_MS : Int := 3000

/-- Cleanup timer period in `src/App.tsx` (`setInterval(..., 2000)`). -/
def CLEANUP_PERIOD_MS : Int := 2000

/-- Heartbeat timer period in `src/App.tsx` (`setInterval(..., 1000)`). -/
def HEARTBEAT_PERIOD_MS : Int := 1000

/-! ## Presence tracker (`src/App.tsx`, `ChatRoom`) -/

/-- The filter predicate of the cleanup loop, `src/App.tsx` lines 150-157:
`if (u.id === currentUser.id) return true;`
`return (now - (u.lastSeen || 0)) < 3000;`
(JavaScript `u.lastSeen || 0` reads `0` when `lastSeen` is `undefined`). -/
def cleanupKeep (selfId : String) (now : Int) (u : User) : Bool :=
  if u.id == selfId then true
  else decide (now - (u.lastSeen.getD 0) < STALE_TTL_MS)

/-- One tick of the cleanup interval, `src/App.tsx` lines 148-158:
`setOnlineUsers(prev => prev.filter(u => ...))`. -/
def cleanupTick (selfId : String) (now : Int) (prev : List User) : List User :=
  prev.filter (cleanupKeep selfId now)

/-- The `USER_JOIN`/`HEARTBEAT` receive handler on `onlineUsers`,
`src/App.tsx` lines 124-134: find the index of an entry with the incoming
user's id; if found, overwrite that slot with
`{ ...data.user, lastSeen: Date.now() }`; otherwise append
`{ ...data.user, lastSeen: Date.now() }`. -/
def upsertUser (prev : List User) (u : User) (now : Int) : List User :=
  match prev.findIdx? (fun v => v.id == u.id) with
  | some i => prev.set i { u with lastSeen := some now }
  | none => prev ++ [{ u with lastSeen := some now }]

/-- Events that touch the `ChatRoom` component's state: a received
`USER_JOIN`/`HEARTBEAT` envelope (both run the same upsert, with the local
receipt time), a received `NEW_MESSAGE` envelope (which does not touch the
presence list), and a cleanup-interval tick. -/
inductive PresenceEvent where
  | recv (u : User) (now : Int)
  | newMessage (m : Message)
  | cleanup (now : Int)
  deriving Repr, DecidableEq

/-- Effect of one event on the `onlineUsers` presence list. -/
def presenceStep (selfId : String) (peers : List User) : PresenceEvent → List User
  | .recv u now => upsertUser peers u now
  | .newMessage _ => peers
  | .cleanup now => cleanupTick selfId now peers

/-- The presence list after a sequence of events, starting from the
initial state `useState<User[]>([currentUser])` (`src/App.tsx` line 92). -/
def presenceRun (selfId : String) (init : List User) (evs : List PresenceEvent) : List User :=
  evs.foldl (presenceStep selfId) init

/-! ## Message bus (`src/App.tsx`) -/

/-- `setMessages(prev => [...prev, m])` — the transcript append used both
by the optimistic local echo (`src/App.tsx` line 199) and by the
`NEW_MESSAGE` receive handler (line 121), which appends unconditionally. -/
def appendMessage (messages : List Message) (m : Message) : List Message :=
  messages ++ [m]

/-! ## JavaScript string semantics

The dispatcher in `handleSendMessage` uses `String.prototype.trim`,
`String.prototype.replace` (first-occurrence for a string pattern,
all occurrences for a `/…/g` regex), `String.prototype.startsWith`, and
the regular expression `^@川小农\s*(.*)$`.  These platform primitives are
embedded below over `List Char`. -/

/-- The character class of the ECMAScript `\s` escape (also the set
removed by `String.prototype.trim`): WhiteSpace ∪ LineTerminator. -/
def isJsWhitespace (c : Char) : Bool :=
  c = ' ' || c = '\t' || c = '\n' || c = '\x0b' || c = '\x0c' || c = '\r'
    || c = ' ' || c = ' ' || (' ' ≤ c && c ≤ ' ')
    || c = ' ' || c = ' ' || c = ' ' || c = ' '
    || c = '　' || c = '﻿'

/-- ECMAScript LineTerminator characters (which `.` does not match and
`$` without the `m` flag must not precede). -/
def isLineTerminator (c : Char) : Bool :=
  c = '\n' || c = '\r' || c = ' ' || c = ' '

/-- `String.prototype.trim`: drop leading and trailing `\s` characters. -/
def jsTrim (s : String) : String :=
  String.mk (((s.toList.dropWhile isJsWhitespace).reverse.dropWhile
    isJsWhitespace).reverse)

/-- `matchesAt pat l` holds when `pat` is a leading segment of `l`
(the test JavaScript's `startsWith` and `replace` perform at a
candidate position). -/
def matchesAt : List Char → List Char → Bool
  | [], _ => true
  | _ :: _, [] => false
  | p :: ps, c :: cs => p = c && matchesAt ps cs

/-- The video-bot command tag `'@电影'` (`src/App.tsx` line 207). -/
def MOVIE_TAG : List Char := ['@', '电', '影']

/-- The assistant command tag `'@川小农'` (`src/App.tsx` line 234). -/
def AI_TAG : List Char := ['@', '川', '小', '农']

/-- `rawContent.replace('@电影', '')` — with a string pattern, JavaScript
`replace` removes only the first occurrence. -/
def stripMovieOnce : List Char → List Char
  | '@' :: '电' :: '影' :: rest => rest
  | c :: rest => c :: stripMovieOnce rest
  | [] => []

/-- `.replace(/播放/g, '')` — the `g` flag removes every (left-to-right,
non-overlapping) occurrence of `播放`. -/
def removeBoFang : List Char → List Char
  | '播' :: '放' :: rest => removeBoFang rest
  | c :: rest => c :: removeBoFang rest
  | [] => []

/-- `src/App.tsx` line 209:
`rawContent.replace('@电影', '').replace(/播放/g, '').trim()`. -/
def movieRawUrl (rawContent : String) : String :=
  jsTrim (String.mk (removeBoFang (stripMovieOnce rawContent.toList)))

/-- The capture group of `rawContent.match(/^@川小农\s*(.*)$/)`
(`src/App.tsx` lines 234-235).  The regex matches exactly when the
content starts with the tag and everything after the maximal leading
`\s*` run is free of line terminators (`.` does not cross them and `$`
without the `m` flag only matches at the very end); the greedy `(.*)`
capture is then that remainder. -/
def aiMatchCapture (content : String) : Option String :=
  if matchesAt AI_TAG content.toList then
    let cap := (content.toList.drop AI_TAG.length).dropWhile isJsWhitespace
    if cap.any isLineTerminator then none else some (String.mk cap)
  else none

/-! ## Assistant call (`src/services/aiService.ts`) -/

/-- Outcome of `await response.json()`: either the promise rejects, or it
yields a body in which the `choices?.[0]?.message?.content` optional
chain either resolves to a string or comes out `undefined`. -/
inductive BodyParse where
  | fail
  | parsed (content : Option String)
  deriving Repr, DecidableEq

/-- Outcome of the `fetch` call: the promise rejects (network error), or
a response arrives with an `ok` flag and a body. -/
inductive FetchResult where
  | fetchThrow
  | resp (ok : Bool) (body : BodyParse)
  deriving Repr, DecidableEq

/-- Fallback returned on a non-ok HTTP status (`aiService.ts` line 34). -/
def API_ERROR_FALLBACK : String := "川小农现在有点晕，请稍后再试... (API Error)"

/-- Fallback returned when `choices?.[0]?.message?.content` is absent or
falsy (`aiService.ts` line 38). -/
def NO_CONTENT_FALLBACK : String := "川小农不知道该说什么..."

/-- Fallback returned by the `catch` block (`aiService.ts` line 41). -/
def NETWORK_FALLBACK : String := "网络连接似乎断开了..."

/-- The `try` block of `sendMessageToAi`: a `.error` value models a
thrown/rejected promise (`fetch` itself or either `response.json()`
call).  On a non-ok status the code first awaits `response.json()` (so a
body-parse failure there also throws), then returns the API-error
fallback; on an ok status it returns
`data.choices?.[0]?.message?.content || NO_CONTENT_FALLBACK`, where the
JavaScript `||` also replaces an empty-string content. -/
def aiTryBody (f : FetchResult) : Except Unit String :=
  match f with
  | .fetchThrow => .error ()
  | .resp ok body =>
    if ok then
      match body with
      | .fail => .error ()
      | .parsed content =>
        match content with
        | some c => .ok (if c = "" then NO_CONTENT_FALLBACK else c)
        | none => .ok NO_CONTENT_FALLBACK
    else
      match body with
      | .fail => .error ()
      | .parsed _ => .ok API_ERROR_FALLBACK

/-- `sendMessageToAi` from `src/services/aiService.ts`: the whole body is
wrapped in `try { ... } catch { return NETWORK_FALLBACK }`, so every
failure is swallowed into a string result.  The request payload built
from `userMessage` does not influence which branch the code takes, so the
argument is carried only for signature fidelity. -/
def sendMessageToAi (_userMessage : String) (f : FetchResult) : String :=
  match aiTryBody f with
  | .ok s => s
  | .error _ => NETWORK_FALLBACK

/-! ## Bot dispatcher (`src/App.tsx`, `handleSendMessage`) -/

/-- What the bot logic of one `handleSendMessage` call does after the
user message is (possibly) sent: nothing, the silent movie no-op
(matched `@电影` but empty target), a movie-bot message, or an assistant
call with the extracted query. -/
inductive BotOutcome where
  | noBot
  | movieSilent
  | movieMsg (msg : Message)
  | aiCall (query : String)
  deriving Repr, DecidableEq

/-- Result of one `handleSendMessage` call: the user message appended to
the transcript and published (or `none` when the blank-input guard
returned early), and the bot outcome. -/
structure SendResult where
  userMsg : Option Message
  bot : BotOutcome
  deriving Repr, DecidableEq

/-- `handleSendMessage` from `src/App.tsx` lines 181-261.
`msgTime` is the `Date.now()` used for the user message, `botTime` the
one used inside the (delayed) movie-bot branch.
- line 182: `if (!inputText.trim()) return;`
- lines 184-200: build the TEXT message from the trimmed content, append
  it locally and publish it;
- lines 207-231: `@电影` branch, with `if (rawUrl)` (empty string is
  falsy) and an unconditional `return` before the assistant check;
- lines 234-242: `@川小农` branch, `query = aiMatch[1] || '你好'`. -/
def handleSendMessage (currentUser : User) (inputText : String)
    (msgTime botTime : Int) : SendResult :=
  if jsTrim inputText = "" then { userMsg := none, bot := .noBot }
  else
    let rawContent := jsTrim inputText
    let newMessage : Message :=
      { id := toString msgTime
        senderId := currentUser.id
        senderName := currentUser.nickname
        avatar := currentUser.avatar
        content := rawContent
        type := .TEXT
        timestamp := msgTime }
    if matchesAt MOVIE_TAG rawContent.toList then
      let rawUrl := movieRawUrl rawContent
      if rawUrl = "" then { userMsg := some newMessage, bot := .movieSilent }
      else
        { userMsg := some newMessage
          bot := .movieMsg
            { id := toString botTime ++ "-movie"
              senderId := "movie-bot"
              senderName := MOVIE_BOT_NAME
              avatar := MOVIE_BOT_AVATAR
              content := "为您播放: " ++ rawUrl
              type := .VIDEO
              videoUrl := some (VIDEO_PARSER_URL ++ rawUrl)
              timestamp := botTime
              isAi := some true } }
    else
      match aiMatchCapture rawContent with
      | some cap =>
        { userMsg := some newMessage
          bot := .aiCall (if cap = "" then "你好" else cap) }
      | none => { userMsg := some newMessage, bot := .noBot }

/-- The pieces of `ChatRoom` state the assistant branch touches: the
thinking flag, the local transcript, and the envelopes posted to the
channel. -/
structure AiUiState where
  isAiThinking : Bool
  messages : List Message
  published : List Message
  deriving Repr, DecidableEq

/-- The assistant bot message built in `src/App.tsx` lines 244-253. -/
def aiBotMessage (responseText : String) (botTime : Int) : Message :=
  { id := toString botTime ++ "-ai"
    senderId := "ai-bot"
    senderName := AI_BOT_NAME
    avatar := AI_BOT_AVATAR
    content := responseText
    type := .TEXT
    timestamp := botTime
    isAi := some true }

/-- The assistant branch of `handleSendMessage` (`src/App.tsx` lines
237-260): set `isAiThinking` true, `try { await sendMessageToAi(query);
append and publish the bot message } finally { setIsAiThinking(false) }`.
`sendMessageToAi` is total (its own `catch` swallows every failure), so
the `try` body always completes and the `finally` clears the flag after
the publish on every path. -/
def runAiCommand (st : AiUiState) (query : String) (f : FetchResult)
    (botTime : Int) : AiUiState :=
  let st1 := { st with isAiThinking := true }
  let aiResponseText := sendMessageToAi query f
  let aiMessage := aiBotMessage aiResponseText botTime
  let st2 := { st1 with
    messages := appendMessage st1.messages aiMessage
    published := st1.published ++ [aiMessage] }
  { st2 with isAiThinking := false }

/-! ## Multi-session broadcast model -/

/-- Modelled from the spec: the Topic Channel transport is the browser
`BroadcastChannel` primitive, which is not part of `src/`.  Per the
platform, `postMessage` delivers an envelope to every other attached
channel object with the same name, but never back to the instance that
posted it.  `deliverOthers ts s m` runs the `NEW_MESSAGE` receive handler
(`appendMessage`) on every session except the sender `s`. -/
def deliverOthers {n : Nat} (ts : Fin n → List Message) (s : Fin n)
    (m : Message) : Fin n → List Message :=
  fun i => if i = s then ts i else appendMessage (ts i) m

/-- One `Send` by session `s` as performed by `handleSendMessage` lines
199-200: append the message to the sender's own transcript (optimistic
local echo), then post the `NEW_MESSAGE` envelope, which reaches every
other session's receive handler. -/
def sendNewMessage {n : Nat} (ts : Fin n → List Message) (s : Fin n)
    (m : Message) : Fin n → List Message :=
  deliverOthers (fun i => if i = s then appendMessage (ts i) m else ts i) s m

/-! ## Theorems -/

/-- C10: for every input text that is empty or consists only of
whitespace (i.e. whose JavaScript `trim` is empty), `handleSendMessage`
is a complete no-op: no user message is appended or published and no bot
path (video or assistant) is evaluated. -/
theorem blank_input_is_noop (cu : User) (inputText : String)
    (msgTime botTime : Int) (h : jsTrim inputText = "") :
    handleSendMessage cu inputText msgTime botTime
      = { userMsg := none, bot := BotOutcome.noBot } := by
  rw [handleSendMessage, if_pos h]

/-- C10 witness: a whitespace-only input evaluates to the no-op result. -/
theorem blank_input_is_noop_witness :
    handleSendMessage
        { id := "u1", nickname := "Ann", avatar := "", isOnline := true }
        "  \t\n " 1 2
      = { userMsg := none, bot := BotOutcome.noBot } :=
  blank_input_is_noop
    { id := "u1", nickname := "Ann", avatar := "", isOnline := true }
    "  \t\n " 1 2 (by decide)

/-- C8: for every assistant command invocation and every outcome of the
external completion call (success, transport failure, malformed
response — all values of `FetchResult`), the thinking/busy flag is false
once `runAiCommand` completes, and the bot message (carrying the
response or a fallback) has been appended and published. -/
theorem ai_busy_flag_always_reset (st : AiUiState) (query : String)
    (f : FetchResult) (botTime : Int) :
    (runAiCommand st query f botTime).isAiThinking = false ∧
    (runAiCommand st query f botTime).published
      = st.published ++ [aiBotMessage (sendMessageToAi query f) botTime] ∧
    (runAiCommand st query f botTime).messages
      = appendMessage st.messages (aiBotMessage (sendMessageToAi query f) botTime) :=
  ⟨rfl, rfl, rfl⟩

/-- C7 counterexample: the claim says a success response with the
`choices[0].message.content` path present returns that content, but for
the concrete success response whose content is the empty string the code
returns the fixed "nothing to say" fallback instead (JavaScript `||`
also discards an empty-string content). -/
theorem ai_empty_content_returns_fallback :
    sendMessageToAi "hi" (FetchResult.resp true (BodyParse.parsed (some "")))
        = NO_CONTENT_FALLBACK ∧
    NO_CONTENT_FALLBACK ≠ "" :=
  ⟨rfl, by decide⟩

/-- C7 (amended): `sendMessageToAi` never propagates a failure — its
result is fully determined, case by case, over every fetch outcome:
a success response whose content path is present and non-empty returns
exactly that content; a success response whose content path is absent or
the empty string returns the fixed "nothing to say" fallback; a non-ok
response whose error body parses returns the fixed API-error fallback;
and a rejected fetch or a rejected `response.json()` (on either status)
returns the fixed network fallback.  The four cases cover every value of
`FetchResult`, so no input can make the call throw. -/
theorem ai_call_result_characterized (userMessage : String) (f : FetchResult) :
    (∀ c, c ≠ "" → f = FetchResult.resp true (BodyParse.parsed (some c)) →
      sendMessageToAi userMessage f = c) ∧
    (f = FetchResult.resp true (BodyParse.parsed (some "")) ∨
        f = FetchResult.resp true (BodyParse.parsed none) →
      sendMessageToAi userMessage f = NO_CONTENT_FALLBACK) ∧
    (∀ b, f = FetchResult.resp false (BodyParse.parsed b) →
      sendMessageToAi userMessage f = API_ERROR_FALLBACK) ∧
    (f = FetchResult.fetchThrow ∨ f = FetchResult.resp true BodyParse.fail ∨
        f = FetchResult.resp false BodyParse.fail →
      sendMessageToAi userMessage f = NETWORK_FALLBACK) := by
  refine ⟨?_, ?_, ?_, ?_⟩
  · intro c hc hf
    subst hf
    simp [sendMessageToAi, aiTryBody, hc]
  · rintro (hf | hf) <;> subst hf <;> rfl
  · intro b hf
    subst hf
    rfl
  · rintro (hf | hf | hf) <;> subst hf <;> rfl

/-- C7 amended-claim witness: a concrete success response with a
non-empty content is returned verbatim. -/
theorem ai_call_result_characterized_witness :
    sendMessageToAi "hi" (FetchResult.resp true (BodyParse.parsed (some "好的")))
      = "好的" :=
  (ai_call_result_characterized "hi"
      (FetchResult.resp true (BodyParse.parsed (some "好的")))).1
    "好的" (by decide) rfl

/-- C1: at a cleanup tick with local time `now`, every non-self entry
whose `lastSeen` is at least the 3000 ms TTL in the past is removed from
the presence list, and every non-self entry seen within the TTL is
retained. -/
theorem cleanup_tick_eviction (selfId : String) (now : Int) (prev : List User)
    (u : User) (hmem : u ∈ prev) (hself : u.id ≠ selfId) :
    (STALE_TTL_MS ≤ now - u.lastSeen.getD 0 → u ∉ cleanupTick selfId now prev) ∧
    (now - u.lastSeen.getD 0 < STALE_TTL_MS → u ∈ cleanupTick selfId now prev) := by
  have hbeq : (u.id == selfId) = false := by
    simpa using hself
  constructor
  · intro hstale hin
    rw [cleanupTick, List.mem_filter, cleanupKeep] at hin
    rw [hbeq] at hin
    simp at hin
    exact absurd hin.2 (not_lt.mpr hstale)
  · intro hfresh
    rw [cleanupTick, List.mem_filter, cleanupKeep, hbeq]
    simp [hmem, hfresh]

/-- C1 witness: a concrete stale peer (last seen 1000, now 5000) is
evicted by the tick, and the same peer is retained at now 3999 where the
gap 2999 ms is within the TTL. -/
theorem cleanup_tick_eviction_witness :
    ({ id := "u1", nickname := "Ann", avatar := "", isOnline := true,
       lastSeen := some 1000 } : User)
        ∉ cleanupTick "self" 5000
            [{ id := "u1", nickname := "Ann", avatar := "", isOnline := true,
               lastSeen := some 1000 }] ∧
    ({ id := "u1", nickname := "Ann", avatar := "", isOnline := true,
       lastSeen := some 1000 } : User)
        ∈ cleanupTick "self" 3999
            [{ id := "u1", nickname := "Ann", avatar := "", isOnline := true,
               lastSeen := some 1000 }] :=
  ⟨(cleanup_tick_eviction "self" 5000 _ _ (by decide) (by decide)).1 (by decide),
   (cleanup_tick_eviction "self" 3999 _ _ (by decide) (by decide)).2 (by decide)⟩

/-- Helper: an entry of `prev` whose id differs from the incoming id
survives an in-place `List.set` at the found index. -/
lemma mem_set_of_ne_id {prev : List User} {u : User} {i : Nat}
    (hlt : i < prev.length) (hpi : (prev.get ⟨i, hlt⟩).id = u.id)
    {v : User} (hv : v ∈ prev) (hne : v.id ≠ u.id) (x : User) :
    v ∈ prev.set i x := by
  obtain ⟨j, hj, hje⟩ := List.mem_iff_getElem.mp hv
  have hij : i ≠ j := by
    intro he
    subst he
    exact hne (by rw [← hje]; exact hpi)
  rw [List.mem_iff_getElem]
  refine ⟨j, by simpa using hj, ?_⟩
  rw [List.getElem_set_ne hij]
  exact hje

/-- C3: the `USER_JOIN`/`HEARTBEAT` upsert.  If an entry with the
incoming user's id is already present, the result is `prev` with that
single entry overwritten in place by the incoming user's fields with
`lastSeen` set to the local receipt time: the length is unchanged, the
refreshed copy is present, every entry with a different id survives, and
the number of entries carrying that id is unchanged (no duplicate).  If
no entry with that id exists, the result is exactly `prev` with the
incoming user (with `lastSeen := now`) appended. -/
theorem upsert_replaces_or_inserts (prev : List User) (u : User) (now : Int) :
    ((∃ v ∈ prev, v.id = u.id) →
      (upsertUser prev u now).length = prev.length ∧
      { u with lastSeen := some now } ∈ upsertUser prev u now ∧
      (∀ v ∈ prev, v.id ≠ u.id → v ∈ upsertUser prev u now) ∧
      (upsertUser prev u now).countP (fun w => w.id == u.id)
        = prev.countP (fun w => w.id == u.id)) ∧
    ((∀ v ∈ prev, v.id ≠ u.id) →
      upsertUser prev u now = prev ++ [{ u with lastSeen := some now }]) := by
  constructor
  · rintro ⟨v, hv, hvid⟩
    cases hfind : prev.findIdx? (fun w => w.id == u.id) with
    | none =>
      rw [List.findIdx?_eq_none_iff] at hfind
      exact absurd (by simpa using hvid) (by simpa using hfind v hv)
    | some i =>
      have hset : upsertUser prev u now = prev.set i { u with lastSeen := some now } := by
        rw [upsertUser, hfind]
      rw [List.findIdx?_eq_some_iff_getElem] at hfind
      obtain ⟨hlt, hpi, -⟩ := hfind
      have hpid : prev[i].id = u.id := by simpa using hpi
      refine ⟨by rw [hset]; exact List.length_set .., ?_, ?_, ?_⟩
      · rw [hset]
        exact List.mem_set prev i (by simpa using hlt) _
      · intro w hw hwne
        rw [hset]
        exact mem_set_of_ne_id hlt hpid hw hwne _
      · rw [hset]
        have hrepr := @List.set_eq_take_append_cons_drop User prev i
          { u with lastSeen := some now }
        rw [if_pos hlt] at hrepr
        rw [hrepr]
        conv_rhs =>
          rw [← List.take_append_drop i prev, List.drop_eq_getElem_cons hlt]
        rw [List.countP_append, List.countP_append,
          List.countP_cons_of_pos _ _ (by simp),
          List.countP_cons_of_pos _ _ (by simpa using hpid)]
  · intro hall
    cases hfind : prev.findIdx? (fun w => w.id == u.id) with
    | none => rw [upsertUser, hfind]
    | some i =>
      rw [List.findIdx?_eq_some_iff_getElem] at hfind
      obtain ⟨hlt, hpi, -⟩ := hfind
      have hm := @List.getElem_mem User prev i hlt
      exact absurd (by simpa using hpi) (hall _ hm)

/-- C3 witness: upserting a fresh copy of `u1` over a one-element list
already containing `u1` yields the refreshed entry (and, by the theorem,
no duplicate). -/
theorem upsert_replaces_or_inserts_witness :
    ({ id := "u1", nickname := "New", avatar := "a", isOnline := true,
       lastSeen := some 9 } : User)
      ∈ upsertUser
          [{ id := "u1", nickname := "Old", avatar := "b", isOnline := false,
             lastSeen := some 1 }]
          { id := "u1", nickname := "New", avatar := "a", isOnline := true }
          9 :=
  ((upsert_replaces_or_inserts
      [{ id := "u1", nickname := "Old", avatar := "b", isOnline := false,
         lastSeen := some 1 }]
      { id := "u1", nickname := "New", avatar := "a", isOnline := true }
      9).1
    ⟨{ id := "u1", nickname := "Old", avatar := "b", isOnline := false,
       lastSeen := some 1 }, by simp, rfl⟩).2.1

/-- Helper for C2: every presence-affecting step keeps at least one
entry with the given id when one was present before. -/
lemma presenceStep_keeps_id (sid : String) (peers : List User)
    (ev : PresenceEvent) (h : ∃ v ∈ peers, v.id = sid) :
    ∃ w ∈ presenceStep sid peers ev, w.id = sid := by
  obtain ⟨v, hv, hvid⟩ := h
  cases ev with
  | newMessage m => exact ⟨v, hv, hvid⟩
  | cleanup now =>
    refine ⟨v, ?_, hvid⟩
    rw [presenceStep, cleanupTick, List.mem_filter]
    exact ⟨hv, by rw [cleanupKeep]; simp [hvid]⟩
  | recv u now =>
    rw [presenceStep]
    cases hfind : peers.findIdx? (fun w => w.id == u.id) with
    | none =>
      rw [upsertUser, hfind]
      exact ⟨v, by simp [hv], hvid⟩
    | some i =>
      have hset : upsertUser peers u now = peers.set i { u with lastSeen := some now } := by
        rw [upsertUser, hfind]
      rw [List.findIdx?_eq_some_iff_getElem] at hfind
      obtain ⟨hlt, hpi, -⟩ := hfind
      have hpid : peers[i].id = u.id := by simpa using hpi
      by_cases hvu : v.id = u.id
      · refine ⟨{ u with lastSeen := some now }, ?_, ?_⟩
        · rw [hset]
          exact List.mem_set peers i (by simpa using hlt) _
        · show u.id = sid
          rw [← hvu, hvid]
      · refine ⟨v, ?_, hvid⟩
        rw [hset]
        exact mem_set_of_ne_id hlt hpid hv hvu _

/-- C2: the presence list always contains an entry with the local
user's id.  It starts as `[currentUser]`, and no sequence of received
`USER_JOIN`/`HEARTBEAT`/`NEW_MESSAGE` envelopes and cleanup ticks — in
particular no cleanup tick, however stale self's `lastSeen` — ever
removes the entry carrying that id. -/
theorem self_id_always_present (self : User) (evs : List PresenceEvent) :
    ∃ u ∈ presenceRun self.id [self] evs, u.id = self.id := by
  have general : ∀ evtail : List PresenceEvent, ∀ peers : List User,
      (∃ v ∈ peers, v.id = self.id) →
      ∃ u ∈ presenceRun self.id peers evtail, u.id = self.id := by
    intro evtail
    induction evtail with
    | nil => intro peers h; exact h
    | cons e rest ih =>
      intro peers h
      rw [presenceRun, List.foldl_cons]
      exact ih (presenceStep self.id peers e) (presenceStep_keeps_id self.id peers e h)
  exact general evs [self] ⟨self, by simp, rfl⟩

/-- Helper: a character list starting with the video tag has the shape
`'@' :: '电' :: '影' :: rest`. -/
lemma matchesAt_movie_shape {l : List Char} (h : matchesAt MOVIE_TAG l = true) :
    ∃ rest, l = '@' :: '电' :: '影' :: rest := by
  rcases l with _ | ⟨a, _ | ⟨b, _ | ⟨c, rest⟩⟩⟩ <;>
    simp [MOVIE_TAG, matchesAt] at h
  obtain ⟨ha, hb, hc⟩ := h
  subst ha; subst hb; subst hc
  exact ⟨rest, rfl⟩

/-- Helper: a character list starting with the assistant tag has the
shape `'@' :: '川' :: '小' :: '农' :: rest`. -/
lemma matchesAt_ai_shape {l : List Char} (h : matchesAt AI_TAG l = true) :
    ∃ rest, l = '@' :: '川' :: '小' :: '农' :: rest := by
  rcases l with _ | ⟨a, _ | ⟨b, _ | ⟨c, _ | ⟨d, rest⟩⟩⟩⟩ <;>
    simp [AI_TAG, matchesAt] at h
  obtain ⟨ha, hb, hc, hd⟩ := h
  subst ha; subst hb; subst hc; subst hd
  exact ⟨rest, rfl⟩

/-- Helper: a string whose character list is a cons is not empty. -/
lemma ne_empty_of_toList_cons {s : String} {c : Char} {cs : List Char}
    (h : s.toList = c :: cs) : s ≠ "" := by
  intro he
  rw [he] at h
  exact List.noConfusion h

/-- C5: for every input whose trimmed content starts with the video-bot
tag `@电影`, the dispatched target is exactly the content with the first
occurrence of the tag removed, every `播放` filler removed and the
result trimmed; when that target is empty no bot message is produced
(silent no-op), and otherwise the produced bot message has kind `VIDEO`
and a `videoUrl` equal to the literal concatenation
`VIDEO_PARSER_URL ++ target` with no URL-encoding. -/
theorem video_command_dispatch (cu : User) (inputText : String)
    (msgTime botTime : Int)
    (h : matchesAt MOVIE_TAG (jsTrim inputText).toList = true) :
    movieRawUrl (jsTrim inputText)
        = jsTrim (String.mk (removeBoFang (stripMovieOnce (jsTrim inputText).toList))) ∧
    (movieRawUrl (jsTrim inputText) = "" →
      (handleSendMessage cu inputText msgTime botTime).bot = BotOutcome.movieSilent) ∧
    (movieRawUrl (jsTrim inputText) ≠ "" →
      (handleSendMessage cu inputText msgTime botTime).bot
        = BotOutcome.movieMsg
            { id := toString botTime ++ "-movie"
              senderId := "movie-bot"
              senderName := MOVIE_BOT_NAME
              avatar := MOVIE_BOT_AVATAR
              content := "为您播放: " ++ movieRawUrl (jsTrim inputText)
              type := MessageType.VIDEO
              videoUrl := some (VIDEO_PARSER_URL ++ movieRawUrl (jsTrim inputText))
              timestamp := botTime
              isAi := some true }) := by
  obtain ⟨rest, hr⟩ := matchesAt_movie_shape h
  have hne : jsTrim inputText ≠ "" := ne_empty_of_toList_cons hr
  have hd : matchesAt MOVIE_TAG (jsTrim inputText).data = true := h
  refine ⟨rfl, ?_, ?_⟩
  · intro hz
    simp [handleSendMessage, hne, hd, hz]
  · intro hnz
    simp [handleSendMessage, hne, hd, hnz]

/-- C5 witness: the spec's own example shape with the real configured
tag and filler: sending `"@电影 播放 http://example/x"` produces a VIDEO
bot message whose `videoUrl` is the parser base concatenated with the
bare target. -/
theorem video_command_dispatch_witness :
    (handleSendMessage
        { id := "u1", nickname := "Ann", avatar := "", isOnline := true }
        "@电影 播放 http://example/x" 1 2).bot
      = BotOutcome.movieMsg
          { id := "2-movie"
            senderId := "movie-bot"
            senderName := MOVIE_BOT_NAME
            avatar := MOVIE_BOT_AVATAR
            content := "为您播放: http://example/x"
            type := MessageType.VIDEO
            videoUrl := some "https://jx.xmflv.com/?url=http://example/x"
            timestamp := 2
            isAi := some true } :=
  (video_command_dispatch
    { id := "u1", nickname := "Ann", avatar := "", isOnline := true }
    "@电影 播放 http://example/x" 1 2 (by decide)).2.2 (by decide)

/-- C6: for every input whose trimmed content starts with the video-bot
tag, the assistant path is never taken — the dispatcher's outcome is
never an assistant call, whether or not the video branch produced a
message (including the empty-target silent no-op). -/
theorem video_command_excludes_ai (cu : User) (inputText : String)
    (msgTime botTime : Int) (query : String)
    (h : matchesAt MOVIE_TAG (jsTrim inputText).toList = true) :
    (handleSendMessage cu inputText msgTime botTime).bot
      ≠ BotOutcome.aiCall query := by
  obtain ⟨rest, hr⟩ := matchesAt_movie_shape h
  have hne : jsTrim inputText ≠ "" := ne_empty_of_toList_cons hr
  have hd : matchesAt MOVIE_TAG (jsTrim inputText).data = true := h
  by_cases hz : movieRawUrl (jsTrim inputText) = "" <;>
    simp [handleSendMessage, hne, hd, hz]

/-- C6 witness: `"@电影"` alone (empty target, silent no-op) still does
not dispatch an assistant call. -/
theorem video_command_excludes_ai_witness :
    (handleSendMessage
        { id := "u1", nickname := "Ann", avatar := "", isOnline := true }
        "@电影" 1 2).bot ≠ BotOutcome.aiCall "你好" :=
  video_command_excludes_ai
    { id := "u1", nickname := "Ann", avatar := "", isOnline := true }
    "@电影" 1 2 "你好" (by decide)

/-- C9: for every input whose trimmed content matches
`^@川小农\s*(.*)$` with capture `cap`, the dispatched assistant query is
`cap`, except that an empty capture is replaced by the configured
default `你好`. -/
theorem ai_command_query (cu : User) (inputText : String)
    (msgTime botTime : Int) (cap : String)
    (h : aiMatchCapture (jsTrim inputText) = some cap) :
    (handleSendMessage cu inputText msgTime botTime).bot
      = BotOutcome.aiCall (if cap = "" then "你好" else cap) := by
  have hAI : matchesAt AI_TAG (jsTrim inputText).toList = true := by
    by_contra hn
    rw [aiMatchCapture, if_neg hn] at h
    exact Option.noConfusion h
  obtain ⟨rest, hr⟩ := matchesAt_ai_shape hAI
  have hne : jsTrim inputText ≠ "" := ne_empty_of_toList_cons hr
  have hmov : ¬ matchesAt MOVIE_TAG (jsTrim inputText).toList = true := by
    rw [hr]
    have hch : ('电' : Char) ≠ '川' := by decide
    simp [matchesAt, MOVIE_TAG, hch]
  have hmovd : ¬ matchesAt MOVIE_TAG (jsTrim inputText).data = true := hmov
  simp [handleSendMessage, hne, hmovd, h]

/-- C9 witness: `"@川小农 hello"` dispatches query `"hello"`, and the
bare `"@川小农"` dispatches the default query `"你好"`. -/
theorem ai_command_query_witness :
    (handleSendMessage
        { id := "u1", nickname := "Ann", avatar := "", isOnline := true }
        "@川小农 hello" 1 2).bot = BotOutcome.aiCall "hello" ∧
    (handleSendMessage
        { id := "u1", nickname := "Ann", avatar := "", isOnline := true }
        "@川小农" 1 2).bot = BotOutcome.aiCall "你好" :=
  ⟨ai_command_query
      { id := "u1", nickname := "Ann", avatar := "", isOnline := true }
      "@川小农 hello" 1 2 "hello" (by decide),
   ai_command_query
      { id := "u1", nickname := "Ann", avatar := "", isOnline := true }
      "@川小农" 1 2 "" (by decide)⟩

/-- A concrete locally authored message used for the C4 witnesses. -/
def echoProbeMsg : Message :=
  { id := "1"
    senderId := "u1"
    senderName := "Ann"
    avatar := ""
    content := "hi"
    type := MessageType.TEXT
    timestamp := 1 }

/-- C4 counterexample: under the claim's own premise that a peer
receives its own published envelopes exactly as any other peer does, the
`NEW_MESSAGE` receive path (`src/App.tsx` line 121) appends
unconditionally — it performs no self-filtering — so feeding the
sender's own envelope back to it after the optimistic local echo leaves
two copies of the authored message in the sender's transcript, not
exactly one. -/
theorem self_echo_would_double_insert :
    (appendMessage (appendMessage [] echoProbeMsg) echoProbeMsg).count echoProbeMsg
      = 2 := by decide

/-- C4 (amended): the sender's transcript holds exactly one copy of a
freshly authored message — not because the receive path filters
(it does not), but because the `BroadcastChannel` transport never
delivers a posted envelope back to the posting channel instance, so the
sender's receive handler never sees its own `NEW_MESSAGE`.  Every other
session receives exactly one copy. -/
theorem send_single_copy_in_sender_transcript {n : Nat}
    (ts : Fin n → List Message) (s : Fin n) (m : Message)
    (hfresh : m ∉ ts s) :
    (sendNewMessage ts s m s).count m = 1 ∧
    ∀ i, i ≠ s → sendNewMessage ts s m i = appendMessage (ts i) m := by
  constructor
  · have hs : sendNewMessage ts s m s = appendMessage (ts s) m := by
      simp [sendNewMessage, deliverOthers]
    rw [hs, appendMessage, List.count_append,
      List.count_eq_zero_of_not_mem hfresh, List.count_singleton_self]
  · intro i hi
    simp [sendNewMessage, deliverOthers, hi]

/-- C4 amended-claim witness: two sessions with empty transcripts;
after session 0 sends, its own transcript holds exactly one copy of the
message. -/
theorem send_single_copy_witness :
    (sendNewMessage (fun _ : Fin 2 => ([] : List Message)) 0 echoProbeMsg 0).count
        echoProbeMsg = 1 :=
  (send_single_copy_in_sender_transcript
    (fun _ : Fin 2 => ([] : List Message)) 0 echoProbeMsg (by decide)).1

end Daip
